import Mathlib

/-! Metrics model of ipfs-cluster (`metrics/metrics.go`)

The package declares, at initialisation time, two bucket-boundary sequences,
three tag keys, five measures, five views and the list `DefaultViews`.
Its only function is `makeKey`, which wraps `tag.NewKey` and aborts the
process (through `logger.Fatal`) when key creation fails.

The embedding follows the source declaration by declaration.  The types
`tag.Key`, `stats.Measure`, `view.Aggregation` and `view.View` come from the
imported opencensus packages; they are rendered here as plain records with
the fields the source file sets.
-/

namespace Metrics

/-! ## Imported types -/

/-- The type `tag.Key`: a key is a record holding its name. -/
structure Key where
  name : String
deriving DecidableEq, Repr

/-- Value kind of a measure: `stats.Int64` or `stats.Float64`. -/
inductive MeasureKind where
  | int64
  | float64
deriving DecidableEq, Repr

/-- A measure as built by `stats.Int64(name, description, unit)` or
`stats.Float64(name, description, unit)`. -/
structure Measure where
  kind : MeasureKind
  name : String
  description : String
  unit : String
deriving DecidableEq, Repr

/-- The constant `stats.UnitDimensionless`. -/
def UnitDimensionless : String := "1"

/-- The constant `stats.UnitBytes`. -/
def UnitBytes : String := "By"

/-- The constant `stats.UnitMilliseconds`. -/
def UnitMilliseconds : String := "ms"

/-- The constructor `stats.Int64`. -/
def Int64 (name description unit : String) : Measure :=
  { kind := .int64, name := name, description := description, unit := unit }

/-- The constructor `stats.Float64`. -/
def Float64 (name description unit : String) : Measure :=
  { kind := .float64, name := name, description := description, unit := unit }

/-- The aggregation kinds of `view.Aggregation`. -/
inductive AggType where
  | none
  | count
  | sum
  | distribution
  | lastValue
deriving DecidableEq, Repr

/-- The type `view.Aggregation`: a kind and, for distributions, the bucket
boundaries.  A boundary is kept as the exact value of the constant written in
the source; `float64` below gives the float64 value it is stored as. -/
structure Aggregation where
  type : AggType
  buckets : List ℚ
deriving DecidableEq

/-- The constructor `view.Sum()`. -/
def Sum : Aggregation := { type := .sum, buckets := [] }

/-- The constructor `view.Count()`. -/
def Count : Aggregation := { type := .count, buckets := [] }

/-- The constructor `view.Distribution(bounds...)`. -/
def Distribution (bounds : List ℚ) : Aggregation :=
  { type := .distribution, buckets := bounds }

/-- The type `view.View`, with the fields the source sets; a field left out of
a composite literal has its zero value (empty string, empty slice). -/
structure View where
  name : String := ""
  measure : Measure
  tagKeys : List Key := []
  aggregation : Aggregation
deriving DecidableEq

/-! ## Conversion of constants to float64

The bucket boundaries are written as decimal constants and stored as float64
values.  Constants are exact numbers; passing one where a float64 is expected
rounds it to the nearest float64, ties to even. -/

/-- Number of binary digits of a natural number, by repeated halving; the
first argument bounds the number of halvings. -/
def bitLength : Nat → Nat → Nat
  | 0, _ => 0
  | fuel + 1, n => if n = 0 then 0 else bitLength fuel (n / 2) + 1

/-- The quotient x / y rounded to the nearest integer, ties going to the even
neighbour. -/
def roundHalfEven (x y : Nat) : Nat :=
  let q := x / y
  let r := x % y
  if 2 * r < y then q
  else if 2 * r > y then q + 1
  else if q % 2 = 0 then q else q + 1

/-- Conversion of the positive constant n / d to float64: the significand m
and the exponent p of the nearest float64, whose value is m * 2 ^ p.  The
result is none when the constant is too large for float64. -/
def float64Parts (n d : Nat) : Option (Nat × Int) :=
  let e0 : Int := (bitLength n n : Int) - (bitLength d d : Int)
  let ge : Bool :=
    if 0 ≤ e0 then decide (d * 2 ^ e0.toNat ≤ n) else decide (d ≤ n * 2 ^ (-e0).toNat)
  let e : Int := if ge then e0 else e0 - 1
  let e : Int := if e < -1022 then -1022 else e
  let p : Int := e - 52
  let m : Nat :=
    if 0 ≤ p then roundHalfEven n (d * 2 ^ p.toNat)
    else roundHalfEven (n * 2 ^ (-p).toNat) d
  if 1023 < e ∨ (e = 1023 ∧ m = 2 ^ 53) then none else some (m, p)

/-- Conversion of a numeric constant to float64, as a rational value. -/
def float64 (q : ℚ) : Option ℚ :=
  if q.num = 0 then some 0
  else
    match float64Parts q.num.natAbs q.den with
    | none => none
    | some (m, p) => some ((if q.num < 0 then -1 else 1) * (m : ℚ) * 2 ^ p)

/-- Conversion of a list of numeric constants to float64 values. -/
def float64s : List ℚ → Option (List ℚ)
  | [] => some []
  | q :: rest =>
    match float64 q, float64s rest with
    | some x, some xs => some (x :: xs)
    | _, _ => none

/-! ## Key creation -/

/-- Result of a call that may end in `logger.Fatal`: either the call returns
a value, or the process is aborted with the logged error. -/
inductive Outcome (α : Type) where
  | returned (a : α)
  | fatal (err : String)
deriving DecidableEq, Repr

/-- Sequencing of calls: once the process has aborted nothing else runs. -/
def Outcome.bind {α β : Type} (x : Outcome α) (f : α → Outcome β) : Outcome β :=
  match x with
  | .returned a => f a
  | .fatal e => .fatal e

instance : Monad Outcome where
  pure := Outcome.returned
  bind := Outcome.bind

/-- Upper bound on the length of a key name (`maxKeyLength` of package `tag`). -/
def maxKeyLength : Nat := 255

/-- Lowest admitted character code (`validKeyValueMin`, the space). -/
def validKeyValueMin : Nat := 32

/-- Highest admitted character code (`validKeyValueMax`, the tilde). -/
def validKeyValueMax : Nat := 126

/-- Modelled from the spec: `isASCII` of the imported package `tag`, absent from
the sources; every character of the string lies in the printable ASCII range. -/
def isASCII (s : String) : Bool :=
  s.data.all fun c => !(c.toNat < validKeyValueMin || c.toNat > validKeyValueMax)

/-- Modelled from the spec: `checkKeyName` of the imported package `tag`, absent
from the sources; a name is rejected when it is empty, when it is longer than
255 bytes, or when it holds a character outside printable ASCII. -/
def checkKeyName (name : String) : Bool :=
  if name.utf8ByteSize = 0 then false
  else if name.utf8ByteSize > maxKeyLength then false
  else isASCII name

/-- The error `errInvalidKeyName` of package `tag`. -/
def errInvalidKeyName : String := "invalid key name: only ASCII characters accepted; max length must be 255 characters"

/-- Modelled from the spec: `tag.NewKey` of the imported package `tag`, absent
from the sources; it validates the name and, when valid, yields a key carrying
exactly that name.  Keys have a single type and creation keeps no table of
earlier keys, so no collision between keys arises. -/
def NewKey (name : String) : Except String Key :=
  if !checkKeyName name then .error errInvalidKeyName
  else .ok { name := name }

/-- The function `makeKey`: create the key; on error `logger.Fatal` logs it and
ends the process, so the final `return key` is reached on success only. -/
def makeKey (name : String) : Outcome Key :=
  match NewKey name with
  | .error err => .fatal err
  | .ok key => .returned key

/-! ## Package-level variables -/

/-- The package-level variables, in declaration order. -/
structure Package where
  latencyDistribution : Aggregation
  bytesDistribution : Aggregation
  ClientIPAttribute : String
  HostKey : Key
  ServiceKey : Key
  MethodKey : Key
  PinCountMetric : Measure
  TrackerPinCountMetric : Measure
  PeerCountMetric : Measure
  RequestCountMetric : Measure
  RequestLatencyMetric : Measure
  PinCountView : View
  TrackerPinCountView : View
  PeerCountView : View
  RequestCountView : View
  RequestLatencyView : View
  DefaultViews : List View

/-- Package initialisation: the variable declarations are evaluated in source
order; a fatal `makeKey` aborts the process before anything later is built. -/
def init : Outcome Package := do
  let latencyDistribution := Distribution [0, 0.01, 0.05, 0.1, 0.3, 0.6, 0.8, 1, 2, 3, 4, 5, 6, 8, 10, 13, 16, 20, 25, 30, 40, 50, 65, 80, 100, 130, 160, 200, 250, 300, 400, 500, 650, 800, 1000, 2000, 5000, 10000, 20000, 50000, 100000]
  let bytesDistribution := Distribution [0, 24, 32, 64, 128, 256, 512, 1024, 2048, 4096, 16384, 65536, 262144, 1048576]
  let ClientIPAttribute := "http.client.ip"
  let HostKey ← makeKey "host"
  let ServiceKey ← makeKey "service"
  let MethodKey ← makeKey "method"
  let PinCountMetric := Int64 "cluster/pin_count" "Number of pins" UnitDimensionless
  let TrackerPinCountMetric := Int64 "pintracker/pin_count" "Number of pins" UnitDimensionless
  let PeerCountMetric := Int64 "cluster/peer_count" "Number of cluster peers" UnitDimensionless
  let RequestCountMetric := Int64 "libp2p_gorpc/request_count" "Number of requests" UnitDimensionless
  let RequestLatencyMetric := Float64 "libp2p_gorpc/request_latency" "Latency of RPC request" UnitMilliseconds
  let PinCountView : View := {
    measure := PinCountMetric
    aggregation := Sum }
  let TrackerPinCountView : View := {
    measure := TrackerPinCountMetric
    tagKeys := [HostKey]
    aggregation := Sum }
  let PeerCountView : View := {
    measure := PeerCountMetric
    tagKeys := [HostKey]
    aggregation := Count }
  let RequestCountView : View := {
    measure := RequestCountMetric
    tagKeys := [ServiceKey, MethodKey]
    aggregation := Sum }
  let RequestLatencyView : View := {
    name := "libp2p_gorpc/request_latency"
    measure := RequestLatencyMetric
    tagKeys := [ServiceKey, MethodKey]
    aggregation := latencyDistribution }
  let DefaultViews := [
    PinCountView,
    TrackerPinCountView,
    PeerCountView,
    RequestCountView,
    RequestLatencyView ]
  return {
    latencyDistribution, bytesDistribution, ClientIPAttribute,
    HostKey, ServiceKey, MethodKey,
    PinCountMetric, TrackerPinCountMetric, PeerCountMetric, RequestCountMetric,
    RequestLatencyMetric,
    PinCountView, TrackerPinCountView, PeerCountView, RequestCountView,
    RequestLatencyView, DefaultViews }

/-! ## View names and view registration -/

/-- The name a view is known by: its `Name` field, or the name of its measure
when that field is left empty. -/
def effectiveName (v : View) : String :=
  if v.name = "" then v.measure.name else v.name

/-- Registration failures of the view registry. -/
inductive RegistrationError where
  | conflictingView (name : String)
deriving DecidableEq, Repr

/-- Modelled from the spec: the comparison behind the View Registry's
re-registration rule, absent from the sources; two views are the same when
they agree on name, measure, aggregation and tag keys. -/
def sameView (x v : View) : Bool :=
  effectiveName x == effectiveName v && decide (x.measure = v.measure) &&
    decide (x.aggregation = v.aggregation) && decide (x.tagKeys = v.tagKeys)

/-- Modelled from the spec: `register` of the View Registry, absent from the
sources; the registry is keyed by view name, registering an identical view
again changes nothing, and a different view under a taken name is refused. -/
def register (registry : List View) (v : View) : Except RegistrationError (List View) :=
  match registry.find? (fun x => effectiveName x == effectiveName v) with
  | some x =>
    if sameView x v then .ok registry
    else .error (.conflictingView (effectiveName v))
  | none => .ok (registry ++ [v])

/-- Modelled from the spec: `installDefaults`, absent from the sources; it
registers the given views one after the other and stops at the first error. -/
def installDefaults (views : List View) (registry : List View) :
    Except RegistrationError (List View) :=
  views.foldlM register registry

/-! ## Well-formed key names -/

/-- A key name is well formed when it has between 1 and 255 characters and
every character is printable ASCII (codes 32 to 126). -/
def WellFormedName (name : String) : Prop :=
  1 ≤ name.length ∧ name.length ≤ 255 ∧ ∀ c ∈ name.data, 32 ≤ c.toNat ∧ c.toNat ≤ 126

instance (name : String) : Decidable (WellFormedName name) := by
  unfold WellFormedName; infer_instance

/-! ## The Tag Key Registry

The spec describes key creation against a process-wide registry of keys:
creation fails on a malformed name and on a name held by a key of an
incompatible type, and creating a key again under a name it already holds
gives the same key back.  The state of that registry is made explicit here,
so that what a second call meets is what the first call left behind. -/

/-- Modelled from the spec: the type of a registered key, absent from the
sources; `tag.NewKey` mints string keys, any other type is incompatible. -/
inductive KeyKind where
  | string
  | other
deriving DecidableEq, Repr

/-- Modelled from the spec: an entry of the Tag Key Registry, absent from the
sources; a key together with its type. -/
structure KeyEntry where
  key : Key
  kind : KeyKind
deriving DecidableEq, Repr

/-- Modelled from the spec: `newKey` of the Tag Key Registry, absent from the
sources; the name is validated as by `tag.NewKey`, a name held by a key of an
incompatible type is refused, a name held by a string key gives that key back
and leaves the registry as it is, and a fresh name is entered. -/
def newKey (registry : List KeyEntry) (name : String) :
    Except String (Key × List KeyEntry) :=
  match NewKey name with
  | .error err => .error err
  | .ok key =>
    match registry.find? (fun e => e.key.name == name) with
    | some e =>
      if e.kind = KeyKind.string then .ok (e.key, registry)
      else .error errInvalidKeyName
    | none => .ok (key, registry ++ [{ key := key, kind := KeyKind.string }])

/-- The function `makeKey`, run against the state of the Tag Key Registry: the
key is created in the given registry; on error the process ends, otherwise the
key is returned together with the registry the call leaves behind. -/
def makeKeyIn (registry : List KeyEntry) (name : String) :
    Outcome (Key × List KeyEntry) :=
  match newKey registry name with
  | .error err => .fatal err
  | .ok (key, registry1) => .returned (key, registry1)

/-! ## Float64 lemmas -/

/-- Zero converts to zero. -/
theorem float64_zero : float64 0 = some 0 := by
  simp [float64]

/-- Conversion of a positive constant given as a fraction in lowest terms. -/
theorem float64_eval (q : ℚ) (n d m : ℕ) (p : ℤ) (hn : 0 < n) (hd : 0 < d)
    (hc : Nat.Coprime n d) (hq : q = (n : ℚ) / (d : ℚ))
    (hp : float64Parts n d = some (m, p)) :
    float64 q = some ((m : ℚ) * 2 ^ p) := by
  have hd0 : (0 : ℤ) < (d : ℤ) := by exact_mod_cast hd
  have hq2 : q = ((n : ℤ) : ℚ) / ((d : ℤ) : ℚ) := by simpa using hq
  have hnum : q.num = (n : ℤ) := by
    rw [hq2]; exact Rat.num_div_eq_of_coprime hd0 (by simpa using hc)
  have hden : q.den = d := by
    have := Rat.den_div_eq_of_coprime hd0 (show Nat.Coprime (n : ℤ).natAbs (d : ℤ).natAbs by simpa using hc)
    rw [← hq2] at this
    exact_mod_cast this
  have hn0 : (n : ℤ) ≠ 0 := by exact_mod_cast hn.ne.symm
  simp [float64, hnum, hden, hn0, hp]

/-- A strictly ascending list has no duplicates. -/
theorem nodup_of_ascending (l : List ℚ) (h : l.Chain' (· < ·)) : l.Nodup :=
  (List.chain'_iff_pairwise.mp h).imp (fun hab => ne_of_lt hab)

/-- The latency boundaries, as written: ascending, non-negative, with a
positive one below 1. -/
theorem latency_constants :
    List.Chain' (· < ·) (
      [0, 0.01, 0.05, 0.1, 0.3, 0.6, 0.8, 1, 2, 3, 4, 5, 6, 8, 10, 13, 16, 20, 25, 30, 40, 50,
       65, 80, 100, 130, 160, 200, 250, 300, 400, 500, 650, 800, 1000, 2000, 5000, 10000,
       20000, 50000, 100000] : List ℚ) ∧
    (∀ b ∈ (
      [0, 0.01, 0.05, 0.1, 0.3, 0.6, 0.8, 1, 2, 3, 4, 5, 6, 8, 10, 13, 16, 20, 25, 30, 40, 50,
       65, 80, 100, 130, 160, 200, 250, 300, 400, 500, 650, 800, 1000, 2000, 5000, 10000,
       20000, 50000, 100000] : List ℚ), 0 ≤ b) ∧
    (∃ b ∈ (
      [0, 0.01, 0.05, 0.1, 0.3, 0.6, 0.8, 1, 2, 3, 4, 5, 6, 8, 10, 13, 16, 20, 25, 30, 40, 50,
       65, 80, 100, 130, 160, 200, 250, 300, 400, 500, 650, 800, 1000, 2000, 5000, 10000,
       20000, 50000, 100000] : List ℚ), 0 < b ∧ b < 1) := by
  refine ⟨?_, ?_, 0.01, ?_, ?_, ?_⟩
  · simp only [List.chain'_cons, List.chain'_singleton, and_true]
    norm_num
  · simp only [List.forall_mem_cons, List.not_mem_nil, false_implies, implies_true, and_true]
    norm_num
  · simp
  · norm_num
  · norm_num

/-- The byte-size boundaries, as written: ascending and non-negative. -/
theorem bytes_constants :
    List.Chain' (· < ·) (
      [0, 24, 32, 64, 128, 256, 512, 1024, 2048, 4096, 16384, 65536, 262144, 1048576] : List ℚ) ∧
    (∀ b ∈ (
      [0, 24, 32, 64, 128, 256, 512, 1024, 2048, 4096, 16384, 65536, 262144, 1048576] : List ℚ), 0 ≤ b) := by
  refine ⟨?_, ?_⟩
  · simp only [List.chain'_cons, List.chain'_singleton, and_true]
    norm_num
  · simp only [List.forall_mem_cons, List.not_mem_nil, false_implies, implies_true, and_true]
    norm_num

set_option maxHeartbeats 1000000 in
/-- The float64 values of the latency boundaries: every constant is in range,
and the stored values are ascending, non-negative, from 0 to 100000, with a
positive one below 1. -/
theorem float64s_latency :
    ∃ rs, float64s
      [0, 0.01, 0.05, 0.1, 0.3, 0.6, 0.8, 1, 2, 3, 4, 5, 6, 8, 10, 13, 16, 20, 25, 30, 40, 50,
       65, 80, 100, 130, 160, 200, 250, 300, 400, 500, 650, 800, 1000, 2000, 5000, 10000,
       20000, 50000, 100000] = some rs ∧
      rs.Chain' (· < ·) ∧ (∀ b ∈ rs, 0 ≤ b) ∧ rs.head? = some 0 ∧
      rs.getLast? = some 100000 ∧ (∃ b ∈ rs, 0 < b ∧ b < 1) := by
  have h1 : float64 0.01 = some (5764607523034235 * 2 ^ (-59 : ℤ)) :=
    float64_eval _ 1 100 _ _ (by decide) (by decide) (by decide) (by norm_num) (by decide)
  have h2 : float64 0.05 = some (7205759403792794 * 2 ^ (-57 : ℤ)) :=
    float64_eval _ 1 20 _ _ (by decide) (by decide) (by decide) (by norm_num) (by decide)
  have h3 : float64 0.1 = some (7205759403792794 * 2 ^ (-56 : ℤ)) :=
    float64_eval _ 1 10 _ _ (by decide) (by decide) (by decide) (by norm_num) (by decide)
  have h4 : float64 0.3 = some (5404319552844595 * 2 ^ (-54 : ℤ)) :=
    float64_eval _ 3 10 _ _ (by decide) (by decide) (by decide) (by norm_num) (by decide)
  have h5 : float64 0.6 = some (5404319552844595 * 2 ^ (-53 : ℤ)) :=
    float64_eval _ 3 5 _ _ (by decide) (by decide) (by decide) (by norm_num) (by decide)
  have h6 : float64 0.8 = some (7205759403792794 * 2 ^ (-53 : ℤ)) :=
    float64_eval _ 4 5 _ _ (by decide) (by decide) (by decide) (by norm_num) (by decide)
  have h7 : float64 1 = some (4503599627370496 * 2 ^ (-52 : ℤ)) :=
    float64_eval _ 1 1 _ _ (by decide) (by decide) (by decide) (by norm_num) (by decide)
  have h8 : float64 2 = some (4503599627370496 * 2 ^ (-51 : ℤ)) :=
    float64_eval _ 2 1 _ _ (by decide) (by decide) (by decide) (by norm_num) (by decide)
  have h9 : float64 3 = some (6755399441055744 * 2 ^ (-51 : ℤ)) :=
    float64_eval _ 3 1 _ _ (by decide) (by decide) (by decide) (by norm_num) (by decide)
  have h10 : float64 4 = some (4503599627370496 * 2 ^ (-50 : ℤ)) :=
    float64_eval _ 4 1 _ _ (by decide) (by decide) (by decide) (by norm_num) (by decide)
  have h11 : float64 5 = some (5629499534213120 * 2 ^ (-50 : ℤ)) :=
    float64_eval _ 5 1 _ _ (by decide) (by decide) (by decide) (by norm_num) (by decide)
  have h12 : float64 6 = some (6755399441055744 * 2 ^ (-50 : ℤ)) :=
    float64_eval _ 6 1 _ _ (by decide) (by decide) (by decide) (by norm_num) (by decide)
  have h13 : float64 8 = some (4503599627370496 * 2 ^ (-49 : ℤ)) :=
    float64_eval _ 8 1 _ _ (by decide) (by decide) (by decide) (by norm_num) (by decide)
  have h14 : float64 10 = some (5629499534213120 * 2 ^ (-49 : ℤ)) :=
    float64_eval _ 10 1 _ _ (by decide) (by decide) (by decide) (by norm_num) (by decide)
  have h15 : float64 13 = some (7318349394477056 * 2 ^ (-49 : ℤ)) :=
    float64_eval _ 13 1 _ _ (by decide) (by decide) (by decide) (by norm_num) (by decide)
  have h16 : float64 16 = some (4503599627370496 * 2 ^ (-48 : ℤ)) :=
    float64_eval _ 16 1 _ _ (by decide) (by decide) (by decide) (by norm_num) (by decide)
  have h17 : float64 20 = some (5629499534213120 * 2 ^ (-48 : ℤ)) :=
    float64_eval _ 20 1 _ _ (by decide) (by decide) (by decide) (by norm_num) (by decide)
  have h18 : float64 25 = some (7036874417766400 * 2 ^ (-48 : ℤ)) :=
    float64_eval _ 25 1 _ _ (by decide) (by decide) (by decide) (by norm_num) (by decide)
  have h19 : float64 30 = some (8444249301319680 * 2 ^ (-48 : ℤ)) :=
    float64_eval _ 30 1 _ _ (by decide) (by decide) (by decide) (by norm_num) (by decide)
  have h20 : float64 40 = some (5629499534213120 * 2 ^ (-47 : ℤ)) :=
    float64_eval _ 40 1 _ _ (by decide) (by decide) (by decide) (by norm_num) (by decide)
  have h21 : float64 50 = some (7036874417766400 * 2 ^ (-47 : ℤ)) :=
    float64_eval _ 50 1 _ _ (by decide) (by decide) (by decide) (by norm_num) (by decide)
  have h22 : float64 65 = some (4573968371548160 * 2 ^ (-46 : ℤ)) :=
    float64_eval _ 65 1 _ _ (by decide) (by decide) (by decide) (by norm_num) (by decide)
  have h23 : float64 80 = some (5629499534213120 * 2 ^ (-46 : ℤ)) :=
    float64_eval _ 80 1 _ _ (by decide) (by decide) (by decide) (by norm_num) (by decide)
  have h24 : float64 100 = some (7036874417766400 * 2 ^ (-46 : ℤ)) :=
    float64_eval _ 100 1 _ _ (by decide) (by decide) (by decide) (by norm_num) (by decide)
  have h25 : float64 130 = some (4573968371548160 * 2 ^ (-45 : ℤ)) :=
    float64_eval _ 130 1 _ _ (by decide) (by decide) (by decide) (by norm_num) (by decide)
  have h26 : float64 160 = some (5629499534213120 * 2 ^ (-45 : ℤ)) :=
    float64_eval _ 160 1 _ _ (by decide) (by decide) (by decide) (by norm_num) (by decide)
  have h27 : float64 200 = some (7036874417766400 * 2 ^ (-45 : ℤ)) :=
    float64_eval _ 200 1 _ _ (by decide) (by decide) (by decide) (by norm_num) (by decide)
  have h28 : float64 250 = some (8796093022208000 * 2 ^ (-45 : ℤ)) :=
    float64_eval _ 250 1 _ _ (by decide) (by decide) (by decide) (by norm_num) (by decide)
  have h29 : float64 300 = some (5277655813324800 * 2 ^ (-44 : ℤ)) :=
    float64_eval _ 300 1 _ _ (by decide) (by decide) (by decide) (by norm_num) (by decide)
  have h30 : float64 400 = some (7036874417766400 * 2 ^ (-44 : ℤ)) :=
    float64_eval _ 400 1 _ _ (by decide) (by decide) (by decide) (by norm_num) (by decide)
  have h31 : float64 500 = some (8796093022208000 * 2 ^ (-44 : ℤ)) :=
    float64_eval _ 500 1 _ _ (by decide) (by decide) (by decide) (by norm_num) (by decide)
  have h32 : float64 650 = some (5717460464435200 * 2 ^ (-43 : ℤ)) :=
    float64_eval _ 650 1 _ _ (by decide) (by decide) (by decide) (by norm_num) (by decide)
  have h33 : float64 800 = some (7036874417766400 * 2 ^ (-43 : ℤ)) :=
    float64_eval _ 800 1 _ _ (by decide) (by decide) (by decide) (by norm_num) (by decide)
  have h34 : float64 1000 = some (8796093022208000 * 2 ^ (-43 : ℤ)) :=
    float64_eval _ 1000 1 _ _ (by decide) (by decide) (by decide) (by norm_num) (by decide)
  have h35 : float64 2000 = some (8796093022208000 * 2 ^ (-42 : ℤ)) :=
    float64_eval _ 2000 1 _ _ (by decide) (by decide) (by decide) (by norm_num) (by decide)
  have h36 : float64 5000 = some (5497558138880000 * 2 ^ (-40 : ℤ)) :=
    float64_eval _ 5000 1 _ _ (by decide) (by decide) (by decide) (by norm_num) (by decide)
  have h37 : float64 10000 = some (5497558138880000 * 2 ^ (-39 : ℤ)) :=
    float64_eval _ 10000 1 _ _ (by decide) (by decide) (by decide) (by norm_num) (by decide)
  have h38 : float64 20000 = some (5497558138880000 * 2 ^ (-38 : ℤ)) :=
    float64_eval _ 20000 1 _ _ (by decide) (by decide) (by decide) (by norm_num) (by decide)
  have h39 : float64 50000 = some (6871947673600000 * 2 ^ (-37 : ℤ)) :=
    float64_eval _ 50000 1 _ _ (by decide) (by decide) (by decide) (by norm_num) (by decide)
  have h40 : float64 100000 = some (6871947673600000 * 2 ^ (-36 : ℤ)) :=
    float64_eval _ 100000 1 _ _ (by decide) (by decide) (by decide) (by norm_num) (by decide)
  simp only [float64s, float64_zero, h1, h2, h3, h4, h5, h6, h7, h8, h9, h10, h11, h12, h13, h14, h15, h16, h17, h18, h19, h20, h21, h22, h23, h24, h25, h26, h27, h28, h29, h30, h31, h32, h33, h34, h35, h36, h37, h38, h39, h40]
  refine ⟨_, rfl, ?_, ?_, rfl, ?_, 5764607523034235 * 2 ^ (-59 : ℤ), ?_, ?_, ?_⟩
  · simp only [List.chain'_cons, List.chain'_singleton, and_true]
    norm_num
  · simp only [List.forall_mem_cons, List.not_mem_nil, false_implies, implies_true, and_true]
    norm_num
  · simp only [List.getLast?_cons_cons, List.getLast?_singleton]
    norm_num
  · simp
  · norm_num
  · norm_num

set_option maxHeartbeats 1000000 in
/-- The float64 values of the byte-size boundaries: every constant is in
range, and the stored values are ascending, non-negative, from 0 to 1048576. -/
theorem float64s_bytes :
    ∃ rs, float64s
      [0, 24, 32, 64, 128, 256, 512, 1024, 2048, 4096, 16384, 65536, 262144, 1048576] = some rs ∧
      rs.Chain' (· < ·) ∧ (∀ b ∈ rs, 0 ≤ b) ∧ rs.head? = some 0 ∧
      rs.getLast? = some 1048576 := by
  have h1 : float64 24 = some (6755399441055744 * 2 ^ (-48 : ℤ)) :=
    float64_eval _ 24 1 _ _ (by decide) (by decide) (by decide) (by norm_num) (by decide)
  have h2 : float64 32 = some (4503599627370496 * 2 ^ (-47 : ℤ)) :=
    float64_eval _ 32 1 _ _ (by decide) (by decide) (by decide) (by norm_num) (by decide)
  have h3 : float64 64 = some (4503599627370496 * 2 ^ (-46 : ℤ)) :=
    float64_eval _ 64 1 _ _ (by decide) (by decide) (by decide) (by norm_num) (by decide)
  have h4 : float64 128 = some (4503599627370496 * 2 ^ (-45 : ℤ)) :=
    float64_eval _ 128 1 _ _ (by decide) (by decide) (by decide) (by norm_num) (by decide)
  have h5 : float64 256 = some (4503599627370496 * 2 ^ (-44 : ℤ)) :=
    float64_eval _ 256 1 _ _ (by decide) (by decide) (by decide) (by norm_num) (by decide)
  have h6 : float64 512 = some (4503599627370496 * 2 ^ (-43 : ℤ)) :=
    float64_eval _ 512 1 _ _ (by decide) (by decide) (by decide) (by norm_num) (by decide)
  have h7 : float64 1024 = some (4503599627370496 * 2 ^ (-42 : ℤ)) :=
    float64_eval _ 1024 1 _ _ (by decide) (by decide) (by decide) (by norm_num) (by decide)
  have h8 : float64 2048 = some (4503599627370496 * 2 ^ (-41 : ℤ)) :=
    float64_eval _ 2048 1 _ _ (by decide) (by decide) (by decide) (by norm_num) (by decide)
  have h9 : float64 4096 = some (4503599627370496 * 2 ^ (-40 : ℤ)) :=
    float64_eval _ 4096 1 _ _ (by decide) (by decide) (by decide) (by norm_num) (by decide)
  have h10 : float64 16384 = some (4503599627370496 * 2 ^ (-38 : ℤ)) :=
    float64_eval _ 16384 1 _ _ (by decide) (by decide) (by decide) (by norm_num) (by decide)
  have h11 : float64 65536 = some (4503599627370496 * 2 ^ (-36 : ℤ)) :=
    float64_eval _ 65536 1 _ _ (by decide) (by decide) (by decide) (by norm_num) (by decide)
  have h12 : float64 262144 = some (4503599627370496 * 2 ^ (-34 : ℤ)) :=
    float64_eval _ 262144 1 _ _ (by decide) (by decide) (by decide) (by norm_num) (by decide)
  have h13 : float64 1048576 = some (4503599627370496 * 2 ^ (-32 : ℤ)) :=
    float64_eval _ 1048576 1 _ _ (by decide) (by decide) (by decide) (by norm_num) (by decide)
  simp only [float64s, float64_zero, h1, h2, h3, h4, h5, h6, h7, h8, h9, h10, h11, h12, h13]
  refine ⟨_, rfl, ?_, ?_, rfl, ?_⟩
  · simp only [List.chain'_cons, List.chain'_singleton, and_true]
    norm_num
  · simp only [List.forall_mem_cons, List.not_mem_nil, false_implies, implies_true, and_true]
    norm_num
  · simp only [List.getLast?_cons_cons, List.getLast?_singleton]
    norm_num

/-! ## Registry lemmas -/

/-- Every view is the same as itself. -/
theorem sameView_self (v : View) : sameView v v = true := by
  simp [sameView]

/-- Registering a view whose name is not taken appends it. -/
theorem register_fresh (registry : List View) (v : View)
    (h : ∀ x ∈ registry, effectiveName x ≠ effectiveName v) :
    register registry v = .ok (registry ++ [v]) := by
  have hnone : registry.find? (fun x => effectiveName x == effectiveName v) = none := by
    rw [List.find?_eq_none]
    intro x hx
    simpa using h x hx
  simp [register, hnone]

/-- Registering again a view that is already registered changes nothing. -/
theorem register_again (registry : List View) (v : View) (hv : v ∈ registry)
    (hnd : (registry.map effectiveName).Nodup) :
    register registry v = .ok registry := by
  cases hfind : registry.find? (fun x => effectiveName x == effectiveName v) with
  | none =>
    rw [List.find?_eq_none] at hfind
    exact absurd (by simp) (hfind v hv)
  | some x =>
    have hname : effectiveName x = effectiveName v := by
      simpa using List.find?_some hfind
    have hx : x ∈ registry := List.mem_of_find?_eq_some hfind
    have hxv : x = v := List.inj_on_of_nodup_map hnd hx hv hname
    subst hxv
    simp [register, hfind, sameView_self]

/-- Installing views with fresh, pairwise distinct names appends them all. -/
theorem installDefaults_fresh (views registry : List View)
    (hnd : ((registry ++ views).map effectiveName).Nodup) :
    installDefaults views registry = .ok (registry ++ views) := by
  induction views generalizing registry with
  | nil => simp [installDefaults, pure, Except.pure]
  | cons v rest ih =>
    have hfresh : ∀ x ∈ registry, effectiveName x ≠ effectiveName v := by
      intro x hx heq
      rw [List.map_append, List.nodup_append] at hnd
      exact hnd.2.2 (List.mem_map_of_mem _ hx)
        (heq ▸ List.mem_map_of_mem _ (List.mem_cons_self v rest))
    have hnd2 : (((registry ++ [v]) ++ rest).map effectiveName).Nodup := by
      simpa using hnd
    have hrest := ih (registry ++ [v]) hnd2
    unfold installDefaults at hrest ⊢
    rw [List.foldlM_cons, register_fresh registry v hfresh]
    simpa [bind, Except.bind] using hrest

/-- Installing views that are all registered already changes nothing. -/
theorem installDefaults_again (views registry : List View)
    (hsub : ∀ v ∈ views, v ∈ registry)
    (hnd : (registry.map effectiveName).Nodup) :
    installDefaults views registry = .ok registry := by
  induction views with
  | nil => simp [installDefaults, pure, Except.pure]
  | cons v rest ih =>
    have hrest := ih (fun w hw => hsub w (List.mem_cons_of_mem v hw))
    unfold installDefaults at hrest ⊢
    rw [List.foldlM_cons, register_again registry v (hsub v (List.mem_cons_self v rest)) hnd]
    simpa [bind, Except.bind] using hrest

/-! ## Key-name lemmas -/

/-- An ASCII character is encoded on one byte. -/
theorem utf8Size_ascii (c : Char) (hc : c.toNat ≤ 126) : c.utf8Size = 1 := by
  have hle : c.val ≤ UInt32.ofNatCore 127 (by decide) := by
    show c.val.toNat ≤ 127
    have : c.val.toNat = c.toNat := rfl
    omega
  unfold Char.utf8Size
  simp only []
  exact if_pos hle

/-- A string of ASCII characters takes one byte per character. -/
theorem utf8ByteSize_ascii (s : String) (h : ∀ c ∈ s.data, c.toNat ≤ 126) :
    s.utf8ByteSize = s.length := by
  obtain ⟨cs⟩ := s
  show String.utf8ByteSize.go cs = cs.length
  induction cs with
  | nil => rfl
  | cons c rest ih =>
    have hc : c.toNat ≤ 126 := h c (List.mem_cons_self c rest)
    have hrest := ih (fun d hd => h d (List.mem_cons_of_mem c hd))
    show String.utf8ByteSize.go rest + c.utf8Size = rest.length + 1
    rw [hrest, utf8Size_ascii c hc]

/-- The character loop accepts exactly the strings of printable ASCII. -/
theorem isASCII_iff (s : String) :
    isASCII s = true ↔ ∀ c ∈ s.data, 32 ≤ c.toNat ∧ c.toNat ≤ 126 := by
  simp [isASCII, validKeyValueMin, validKeyValueMax, List.all_eq_true]

/-- The name check of key creation accepts exactly the well-formed names. -/
theorem checkKeyName_iff (name : String) :
    checkKeyName name = true ↔ WellFormedName name := by
  unfold checkKeyName WellFormedName
  constructor
  · intro h
    split at h
    · exact absurd h (by simp)
    · split at h
      · exact absurd h (by simp)
      · rename_i h0 h255
        have hall := (isASCII_iff name).mp h
        have hlen : name.utf8ByteSize = name.length :=
          utf8ByteSize_ascii name (fun c hc => (hall c hc).2)
        simp only [maxKeyLength] at h255
        exact ⟨by omega, by omega, hall⟩
  · rintro ⟨h1, h255, hall⟩
    have hlen : name.utf8ByteSize = name.length :=
      utf8ByteSize_ascii name (fun c hc => (hall c hc).2)
    rw [if_neg (by omega), if_neg (by simp only [maxKeyLength]; omega)]
    exact (isASCII_iff name).mpr hall

/-- On a well-formed name `makeKey` returns the key of that name. -/
theorem makeKey_of_wellFormed (name : String) (h : WellFormedName name) :
    makeKey name = .returned ⟨name⟩ := by
  simp [makeKey, NewKey, (checkKeyName_iff name).mpr h]

/-- On any other name `makeKey` ends in the fatal branch. -/
theorem makeKey_of_not_wellFormed (name : String) (h : ¬ WellFormedName name) :
    makeKey name = .fatal errInvalidKeyName := by
  have hcheck : checkKeyName name = false := by
    cases hc : checkKeyName name with
    | false => rfl
    | true => exact absurd ((checkKeyName_iff name).mp hc) h
  simp [makeKey, NewKey, hcheck]

/-! ## Key registry lemmas -/

/-- A key is determined by its name. -/
theorem key_eq_of_name (k : Key) (name : String) (h : k.name = name) : k = ⟨name⟩ := by
  cases k
  simp_all

/-- Whenever a `makeKey` call returns, the same call run in the registry it
left behind returns the same key and leaves the registry unchanged. -/
theorem makeKeyIn_again (registry : List KeyEntry) (name : String) (k : Key)
    (registry1 : List KeyEntry)
    (hret : makeKeyIn registry name = .returned (k, registry1)) :
    makeKeyIn registry1 name = .returned (k, registry1) := by
  unfold makeKeyIn newKey at hret
  cases hnew : NewKey name with
  | error err =>
    rw [hnew] at hret
    cases hret
  | ok key =>
    rw [hnew] at hret
    cases hfind : registry.find? (fun e => e.key.name == name) with
    | some e =>
      rw [hfind] at hret
      by_cases hkind : e.kind = KeyKind.string
      · simp only [hkind, if_true] at hret
        injection hret with hret
        injection hret with hk hr
        subst hk hr
        simp [makeKeyIn, newKey, hnew, hfind, hkind]
      · simp only [hkind, if_false] at hret
        cases hret
    | none =>
      rw [hfind] at hret
      injection hret with hret
      injection hret with hk hr
      subst hk hr
      have hname : key.name = name := by
        unfold NewKey at hnew
        split at hnew
        · cases hnew
        · injection hnew with hnew
          rw [← hnew]
      have hfind1 : List.find? (fun e : KeyEntry => e.key.name == name)
          (registry ++ [({ key := key, kind := KeyKind.string } : KeyEntry)]) =
            some { key := key, kind := KeyKind.string } := by
        rw [List.find?_append, hfind]
        simp [hname]
      unfold makeKeyIn newKey
      rw [hnew]
      simp only []
      rw [hfind1]
      simp

/-- On a well-formed name that no key of an incompatible type holds, `makeKey`
returns the key of that name, keeps every entry of the registry, keeps its
names pairwise distinct and leaves no incompatible holder of the name. -/
theorem makeKeyIn_returns (registry : List KeyEntry) (name : String)
    (h : WellFormedName name)
    (hfree : ∀ e ∈ registry, e.key.name = name → e.kind = KeyKind.string) :
    ∃ registry1,
      makeKeyIn registry name = .returned (⟨name⟩, registry1) ∧
      (∀ e ∈ registry, e ∈ registry1) ∧
      ((registry.map fun e => e.key.name).Nodup →
        (registry1.map fun e => e.key.name).Nodup) ∧
      (∀ e ∈ registry1, e.key.name = name → e.kind = KeyKind.string) := by
  have hnew : NewKey name = .ok ⟨name⟩ := by
    simp [NewKey, (checkKeyName_iff name).mpr h]
  cases hfind : registry.find? (fun e => e.key.name == name) with
  | some e =>
    have hname : e.key.name = name := by simpa using List.find?_some hfind
    have hmem : e ∈ registry := List.mem_of_find?_eq_some hfind
    have hkind : e.kind = KeyKind.string := hfree e hmem hname
    have hkey : e.key = ⟨name⟩ := key_eq_of_name e.key name hname
    refine ⟨registry, ?_, fun _ he => he, fun hnd => hnd, hfree⟩
    simp [makeKeyIn, newKey, hnew, hfind, hkind, hkey]
  | none =>
    have hnone : ∀ e ∈ registry, e.key.name ≠ name := by
      intro e he
      have := (List.find?_eq_none.mp hfind) e he
      simpa using this
    refine ⟨registry ++ [{ key := ⟨name⟩, kind := KeyKind.string }], ?_, ?_, ?_, ?_⟩
    · simp [makeKeyIn, newKey, hnew, hfind]
    · intro e he
      exact List.mem_append_left _ he
    · intro hnd
      rw [List.map_append, List.nodup_append]
      refine ⟨hnd, by simp, ?_⟩
      intro a ha hb
      simp only [List.map_cons, List.map_nil, List.mem_singleton] at hb
      obtain ⟨e, he, hea⟩ := List.mem_map.mp ha
      exact hnone e he (hea.trans hb)
    · intro e he hname
      rcases List.mem_append.mp he with he | he
      · exact hfree e he hname
      · simp only [List.mem_singleton] at he
        rw [he]

/-- A name held by a key of an incompatible type sends `makeKey` to the fatal
branch, however well formed the name is. -/
theorem makeKeyIn_conflict :
    makeKeyIn [{ key := ⟨"host"⟩, kind := KeyKind.other }] "host" =
      .fatal errInvalidKeyName := by
  decide

/-! ## The default views -/

/-- C1: package initialisation completes, and `DefaultViews` is the list of
exactly five views PinCountView, TrackerPinCountView, PeerCountView,
RequestCountView, RequestLatencyView in this order, without repetition. -/
theorem defaultViews_exact :
    ∃ g, init = .returned g ∧
      g.DefaultViews.length = 5 ∧
      g.DefaultViews = [g.PinCountView, g.TrackerPinCountView, g.PeerCountView,
        g.RequestCountView, g.RequestLatencyView] ∧
      g.DefaultViews.Nodup := by
  refine ⟨_, rfl, rfl, rfl, ?_⟩
  decide

/-- C2: each default view binds the documented measure, aggregation and tag
keys: PinCountView sums PinCountMetric with no tag key, TrackerPinCountView
sums TrackerPinCountMetric by [HostKey], PeerCountView counts PeerCountMetric
by [HostKey], RequestCountView sums RequestCountMetric by
[ServiceKey, MethodKey], and RequestLatencyView is the latencyDistribution
distribution of RequestLatencyMetric by [ServiceKey, MethodKey]. -/
theorem defaultViews_bindings :
    ∃ g, init = .returned g ∧
      (g.PinCountView.measure = g.PinCountMetric ∧
        g.PinCountView.aggregation.type = AggType.sum ∧
        g.PinCountView.tagKeys = []) ∧
      (g.TrackerPinCountView.measure = g.TrackerPinCountMetric ∧
        g.TrackerPinCountView.aggregation.type = AggType.sum ∧
        g.TrackerPinCountView.tagKeys = [g.HostKey]) ∧
      (g.PeerCountView.measure = g.PeerCountMetric ∧
        g.PeerCountView.aggregation.type = AggType.count ∧
        g.PeerCountView.tagKeys = [g.HostKey]) ∧
      (g.RequestCountView.measure = g.RequestCountMetric ∧
        g.RequestCountView.aggregation.type = AggType.sum ∧
        g.RequestCountView.tagKeys = [g.ServiceKey, g.MethodKey]) ∧
      (g.RequestLatencyView.measure = g.RequestLatencyMetric ∧
        g.RequestLatencyView.aggregation.type = AggType.distribution ∧
        g.RequestLatencyView.aggregation = g.latencyDistribution ∧
        g.RequestLatencyView.aggregation.buckets = g.latencyDistribution.buckets ∧
        g.RequestLatencyView.tagKeys = [g.ServiceKey, g.MethodKey]) :=
  ⟨_, rfl, ⟨rfl, rfl, rfl⟩, ⟨rfl, rfl, rfl⟩, ⟨rfl, rfl, rfl⟩, ⟨rfl, rfl, rfl⟩,
    ⟨rfl, rfl, rfl, rfl, rfl⟩⟩

/-! ## Bucket boundaries -/

/-- C3: the boundaries of latencyDistribution are strictly ascending (hence
free of duplicates), none is negative, the first is 0, the last is 100000,
and one of them is positive and below 1; all of this holds of the constants
as written and of the float64 values they are stored as. -/
theorem latencyDistribution_bounds :
    ∃ g, init = .returned g ∧
      g.latencyDistribution.type = AggType.distribution ∧
      g.latencyDistribution.buckets.Chain' (· < ·) ∧
      g.latencyDistribution.buckets.Nodup ∧
      (∀ b ∈ g.latencyDistribution.buckets, 0 ≤ b) ∧
      g.latencyDistribution.buckets.head? = some 0 ∧
      g.latencyDistribution.buckets.getLast? = some 100000 ∧
      (∃ b ∈ g.latencyDistribution.buckets, 0 < b ∧ b < 1) ∧
      ∃ rs, float64s g.latencyDistribution.buckets = some rs ∧
        rs.Chain' (· < ·) ∧
        rs.Nodup ∧
        (∀ b ∈ rs, 0 ≤ b) ∧
        rs.head? = some 0 ∧
        rs.getLast? = some 100000 ∧
        (∃ b ∈ rs, 0 < b ∧ b < 1) := by
  obtain ⟨rs, hrs, hchain, hnonneg, hhead, hlast, hsub⟩ := float64s_latency
  exact ⟨_, rfl, rfl, latency_constants.1, nodup_of_ascending _ latency_constants.1,
    latency_constants.2.1, rfl, rfl, latency_constants.2.2,
    rs, hrs, hchain, nodup_of_ascending _ hchain, hnonneg, hhead, hlast, hsub⟩

/-- C4: the boundaries of bytesDistribution are strictly ascending (hence free
of duplicates), none is negative, the first is 0 and the last is 1048576; all
of this holds of the constants as written and of the float64 values they are
stored as. -/
theorem bytesDistribution_bounds :
    ∃ g, init = .returned g ∧
      g.bytesDistribution.type = AggType.distribution ∧
      g.bytesDistribution.buckets.Chain' (· < ·) ∧
      g.bytesDistribution.buckets.Nodup ∧
      (∀ b ∈ g.bytesDistribution.buckets, 0 ≤ b) ∧
      g.bytesDistribution.buckets.head? = some 0 ∧
      g.bytesDistribution.buckets.getLast? = some 1048576 ∧
      ∃ rs, float64s g.bytesDistribution.buckets = some rs ∧
        rs.Chain' (· < ·) ∧
        rs.Nodup ∧
        (∀ b ∈ rs, 0 ≤ b) ∧
        rs.head? = some 0 ∧
        rs.getLast? = some 1048576 := by
  obtain ⟨rs, hrs, hchain, hnonneg, hhead, hlast⟩ := float64s_bytes
  exact ⟨_, rfl, rfl, bytes_constants.1, nodup_of_ascending _ bytes_constants.1,
    bytes_constants.2, rfl, rfl,
    rs, hrs, hchain, nodup_of_ascending _ hchain, hnonneg, hhead, hlast⟩

/-! ## Names of views and measures -/

/-- C5: the five default views have pairwise distinct effective names;
registering them all into an empty registry succeeds, and registering the
whole list once more succeeds too and leaves the same five views. -/
theorem defaultViews_register_twice :
    ∃ g, init = .returned g ∧
      (g.DefaultViews.map effectiveName).Nodup ∧
      ∃ r, installDefaults g.DefaultViews [] = .ok r ∧
        r.length = 5 ∧
        r.map effectiveName = g.DefaultViews.map effectiveName ∧
        installDefaults g.DefaultViews r = .ok r := by
  refine ⟨_, rfl, ?_, ?_⟩
  · decide
  · refine ⟨_, installDefaults_fresh _ [] (by decide), rfl, rfl, ?_⟩
    exact installDefaults_again _ _ (fun _ h => h) (by decide)

/-- C6: the five declared measures have pairwise distinct names. -/
theorem measure_names_distinct :
    ∃ g, init = .returned g ∧
      ([g.PinCountMetric, g.TrackerPinCountMetric, g.PeerCountMetric,
        g.RequestCountMetric, g.RequestLatencyMetric].map Measure.name).Nodup := by
  refine ⟨_, rfl, ?_⟩
  decide

/-- C7: PinCountMetric, TrackerPinCountMetric, PeerCountMetric and
RequestCountMetric are integer measures with the dimensionless unit, and
RequestLatencyMetric is real-valued, in milliseconds, and the only measure
of that kind. -/
theorem measure_kinds_units :
    ∃ g, init = .returned g ∧
      (g.PinCountMetric.kind = MeasureKind.int64 ∧
        g.PinCountMetric.unit = UnitDimensionless) ∧
      (g.TrackerPinCountMetric.kind = MeasureKind.int64 ∧
        g.TrackerPinCountMetric.unit = UnitDimensionless) ∧
      (g.PeerCountMetric.kind = MeasureKind.int64 ∧
        g.PeerCountMetric.unit = UnitDimensionless) ∧
      (g.RequestCountMetric.kind = MeasureKind.int64 ∧
        g.RequestCountMetric.unit = UnitDimensionless) ∧
      (g.RequestLatencyMetric.kind = MeasureKind.float64 ∧
        g.RequestLatencyMetric.unit = UnitMilliseconds) ∧
      (∀ m ∈ [g.PinCountMetric, g.TrackerPinCountMetric, g.PeerCountMetric,
          g.RequestCountMetric, g.RequestLatencyMetric],
        m.kind = MeasureKind.float64 ↔ m = g.RequestLatencyMetric) ∧
      UnitDimensionless ≠ UnitMilliseconds := by
  refine ⟨_, rfl, ⟨rfl, rfl⟩, ⟨rfl, rfl⟩, ⟨rfl, rfl⟩, ⟨rfl, rfl⟩, ⟨rfl, rfl⟩, ?_, ?_⟩
  · decide
  · decide

/-! ## Key creation -/

/-- C8: for every name, makeKey returns a key exactly when key creation
succeeds, and that key carries exactly the name; it takes the fatal path
exactly when key creation fails; creation succeeds exactly for the
well-formed names (1 to 255 characters, all printable ASCII). -/
theorem makeKey_spec (name : String) :
    (∀ k, makeKey name = .returned k ↔ NewKey name = .ok k) ∧
    (∀ e, makeKey name = .fatal e ↔ NewKey name = .error e) ∧
    (∀ k, makeKey name = .returned k ↔ (WellFormedName name ∧ k = ⟨name⟩)) ∧
    (∀ e, makeKey name = .fatal e ↔ (¬ WellFormedName name ∧ e = errInvalidKeyName)) := by
  refine ⟨?_, ?_, ?_, ?_⟩
  · intro k
    unfold makeKey
    cases NewKey name <;> simp
  · intro e
    unfold makeKey
    cases NewKey name <;> simp
  · intro k
    by_cases h : WellFormedName name
    · rw [makeKey_of_wellFormed name h]
      constructor
      · intro hk
        injection hk with hk
        exact ⟨h, hk.symm⟩
      · rintro ⟨_, rfl⟩
        rfl
    · rw [makeKey_of_not_wellFormed name h]
      constructor
      · intro hk
        cases hk
      · rintro ⟨hw, _⟩
        exact absurd hw h
  · intro e
    by_cases h : WellFormedName name
    · rw [makeKey_of_wellFormed name h]
      constructor
      · intro he
        cases he
      · rintro ⟨hw, _⟩
        exact absurd h hw
    · rw [makeKey_of_not_wellFormed name h]
      constructor
      · intro he
        injection he with he
        exact ⟨h, he.symm⟩
      · rintro ⟨_, rfl⟩
        rfl

/-- C9: for every well-formed name and every state of the key registry in
which that name is not held by a key of an incompatible type, the first
makeKey call returns the key carrying the name, and a second makeKey call
with the same name, run in the state the first one left, returns with no
error, returns an equal key and changes nothing: the registry keeps every
earlier entry, its names stay pairwise distinct, and a further call meets the
same state.  The key is the one the registry-free makeKey returns. -/
theorem makeKey_idempotent (registry : List KeyEntry) (name : String)
    (h : WellFormedName name)
    (hfree : ∀ e ∈ registry, e.key.name = name → e.kind = KeyKind.string) :
    ∃ first registry1 second registry2,
      makeKeyIn registry name = .returned (first, registry1) ∧
      makeKeyIn registry1 name = .returned (second, registry2) ∧
      second = first ∧ first.name = name ∧
      registry2 = registry1 ∧
      makeKey name = .returned first ∧
      (∀ e ∈ registry, e ∈ registry1) ∧
      ((registry.map fun e => e.key.name).Nodup →
        (registry1.map fun e => e.key.name).Nodup) ∧
      (∀ e ∈ registry1, e.key.name = name → e.kind = KeyKind.string) := by
  obtain ⟨registry1, hfirst, hkeep, hnodup, hfree1⟩ :=
    makeKeyIn_returns registry name h hfree
  have hsecond := makeKeyIn_again registry name _ registry1 hfirst
  exact ⟨⟨name⟩, registry1, ⟨name⟩, registry1, hfirst, hsecond, rfl, rfl, rfl,
    makeKey_of_wellFormed name h, hkeep, hnodup, hfree1⟩

theorem makeKey_idempotent_witness :
    WellFormedName "host" ∧
    ∃ first registry1 second registry2,
      makeKeyIn [] "host" = .returned (first, registry1) ∧
      makeKeyIn registry1 "host" = .returned (second, registry2) ∧
      second = first ∧ first.name = "host" ∧
      registry2 = registry1 ∧
      makeKey "host" = .returned first ∧
      (∀ e ∈ ([] : List KeyEntry), e ∈ registry1) ∧
      ((([] : List KeyEntry).map fun e => e.key.name).Nodup →
        (registry1.map fun e => e.key.name).Nodup) ∧
      (∀ e ∈ registry1, e.key.name = "host" → e.kind = KeyKind.string) :=
  ⟨by decide, makeKey_idempotent [] "host" (by decide) (by simp)⟩

/-- C10: the names "host", "service" and "method" are well formed, so the
three makeKey calls of package initialisation return their keys, none reaches
the fatal branch, and the three keys have pairwise distinct names. -/
theorem init_keys_safe :
    WellFormedName "host" ∧ WellFormedName "service" ∧ WellFormedName "method" ∧
    makeKey "host" = .returned ⟨"host"⟩ ∧
    makeKey "service" = .returned ⟨"service"⟩ ∧
    makeKey "method" = .returned ⟨"method"⟩ ∧
    ∃ g, init = .returned g ∧
      g.HostKey = ⟨"host"⟩ ∧ g.ServiceKey = ⟨"service"⟩ ∧ g.MethodKey = ⟨"method"⟩ ∧
      [g.HostKey.name, g.ServiceKey.name, g.MethodKey.name].Nodup := by
  refine ⟨by decide, by decide, by decide, by decide, by decide, by decide,
    _, rfl, rfl, rfl, rfl, ?_⟩
  decide

end Metrics
